import Mathlib

/- Verification development for the AdrianGameEngine scene-graph core.

   The C++ sources are shallowly embedded: C++ `int` is modelled as `Int`
   (the claims under scrutiny never approach the 32-bit limits, and signed
   overflow is undefined behaviour in the source anyway), C++ `double` is
   modelled as `Rat` (every arithmetic step reached by the animation claims
   is exact in binary floating point, so the rational model computes the
   same values), `std::unordered_set` is modelled by its iteration sequence
   (a duplicate-free list; the container does not specify any relation
   between insertion order and iteration order), and `std::vector` by a
   list.  C++ integer division truncates toward zero, so it is rendered
   with `Int.tdiv`, never with `/` (which is Euclidean on `Int` in Lean). -/

namespace AGE

/- ===== Engine_Structure.h : Point / Size / Rectangle ===== -/

/-- Embeds `Engine::Point` (two `int` coordinates). -/
structure Point where
  X : Int
  Y : Int
deriving Repr, DecidableEq

/-- Embeds `Engine::Size` (width/height `int` pair). -/
structure Size where
  Width : Int
  Height : Int
deriving Repr, DecidableEq

/-- Embeds `Engine::RectangleAlignment` (Engine_Enum.h): the nine anchor values. -/
inductive RectangleAlignment where
  | TopLeft
  | TopCenter
  | TopRight
  | MiddleLeft
  | MiddleCenter
  | MiddleRight
  | BottomLeft
  | BottomCenter
  | BottomRight
deriving Repr, DecidableEq

/-- Embeds `Engine::Rectangle` (x, y, width, height as `int`; width/height may be negative). -/
structure Rectangle where
  X : Int
  Y : Int
  Width : Int
  Height : Int
deriving Repr, DecidableEq

/-- `Point::operator-` (componentwise subtraction). -/
def Point.sub (a b : Point) : Point := ⟨a.X - b.X, a.Y - b.Y⟩

/-- `Rectangle::LeftSide`: `Width < 0 ? X + Width + 1 : X`. -/
def Rectangle.LeftSide (r : Rectangle) : Int :=
  if r.Width < 0 then r.X + r.Width + 1 else r.X

/-- `Rectangle::RightSide`: `Width > 0 ? X + Width - 1 : X`. -/
def Rectangle.RightSide (r : Rectangle) : Int :=
  if r.Width > 0 then r.X + r.Width - 1 else r.X

/-- `Rectangle::TopSide`: `Height < 0 ? Y + Height + 1 : Y`. -/
def Rectangle.TopSide (r : Rectangle) : Int :=
  if r.Height < 0 then r.Y + r.Height + 1 else r.Y

/-- `Rectangle::BottomSide`: `Height > 0 ? Y + Height - 1 : Y`. -/
def Rectangle.BottomSide (r : Rectangle) : Int :=
  if r.Height > 0 then r.Y + r.Height - 1 else r.Y

/-- `Rectangle::TopLeft` corner point. -/
def Rectangle.TopLeft (r : Rectangle) : Point := ⟨r.LeftSide, r.TopSide⟩

/-- `Rectangle::IsContain(Point)`: inclusive bounds test against the four sides. -/
def Rectangle.IsContain (r : Rectangle) (p : Point) : Bool :=
  decide (r.LeftSide ≤ p.X) && decide (p.X ≤ r.RightSide) &&
  decide (r.TopSide ≤ p.Y) && decide (p.Y ≤ r.BottomSide)

/-- `Rectangle::LocalToGlobal(LocalRectangle, Alignment)`: the nine-way switch.
    C++ `abs` is `|·|` and C++ `/ 2` on `int` is `Int.tdiv · 2` (truncation
    toward zero).  The `default:` branch of the switch handles `TopLeft`. -/
def Rectangle.LocalToGlobal (r : Rectangle) (LocalRectangle : Rectangle)
    (Alignment : RectangleAlignment) : Rectangle :=
  match Alignment with
  | .TopCenter =>
      ⟨r.LeftSide + LocalRectangle.LeftSide + Int.tdiv (|r.Width| - |LocalRectangle.Width|) 2,
       r.TopSide + LocalRectangle.TopSide,
       |LocalRectangle.Width|, |LocalRectangle.Height|⟩
  | .TopRight =>
      ⟨r.LeftSide + LocalRectangle.LeftSide + (|r.Width| - |LocalRectangle.Width|),
       r.TopSide + LocalRectangle.TopSide,
       |LocalRectangle.Width|, |LocalRectangle.Height|⟩
  | .MiddleLeft =>
      ⟨r.LeftSide + LocalRectangle.LeftSide,
       r.TopSide + LocalRectangle.TopSide + Int.tdiv (|r.Height| - |LocalRectangle.Height|) 2,
       |LocalRectangle.Width|, |LocalRectangle.Height|⟩
  | .MiddleCenter =>
      ⟨r.LeftSide + LocalRectangle.LeftSide + Int.tdiv (|r.Width| - |LocalRectangle.Width|) 2,
       r.TopSide + LocalRectangle.TopSide + Int.tdiv (|r.Height| - |LocalRectangle.Height|) 2,
       |LocalRectangle.Width|, |LocalRectangle.Height|⟩
  | .MiddleRight =>
      ⟨r.LeftSide + LocalRectangle.LeftSide + (|r.Width| - |LocalRectangle.Width|),
       r.TopSide + LocalRectangle.TopSide + Int.tdiv (|r.Height| - |LocalRectangle.Height|) 2,
       |LocalRectangle.Width|, |LocalRectangle.Height|⟩
  | .BottomLeft =>
      ⟨r.LeftSide + LocalRectangle.LeftSide,
       r.TopSide + LocalRectangle.TopSide + (|r.Height| - |LocalRectangle.Height|),
       |LocalRectangle.Width|, |LocalRectangle.Height|⟩
  | .BottomCenter =>
      ⟨r.LeftSide + LocalRectangle.LeftSide + Int.tdiv (|r.Width| - |LocalRectangle.Width|) 2,
       r.TopSide + LocalRectangle.TopSide + (|r.Height| - |LocalRectangle.Height|),
       |LocalRectangle.Width|, |LocalRectangle.Height|⟩
  | .BottomRight =>
      ⟨r.LeftSide + LocalRectangle.LeftSide + (|r.Width| - |LocalRectangle.Width|),
       r.TopSide + LocalRectangle.TopSide + (|r.Height| - |LocalRectangle.Height|),
       |LocalRectangle.Width|, |LocalRectangle.Height|⟩
  | .TopLeft =>
      ⟨r.LeftSide + LocalRectangle.LeftSide,
       r.TopSide + LocalRectangle.TopSide,
       |LocalRectangle.Width|, |LocalRectangle.Height|⟩

/- ===== Engine_GameObject.h : GameObject tree, update / mouse traversal ===== -/

/-- Embeds one `Engine::GameObject` node for the traversal algorithms.
    `scripts` is the iteration sequence of `__scripts` (script identities),
    `childs` the iteration sequence of the `std::unordered_set` field
    `__childs`.  The C++ container does not guarantee that this iteration
    sequence equals insertion order; the list records whatever sequence the
    set yields.  Null entries are skipped by every loop in the source, so
    only live children are modelled. -/
inductive GObj where
  | node (id : Nat) (Enabled : Bool) (HandleInput : Bool)
      (Position : Point) (Sz : Size) (Alignment : RectangleAlignment)
      (scripts : List Nat) (childs : List GObj)

/-- Node identity (models the object's address). -/
def GObj.id : GObj → Nat
  | .node i _ _ _ _ _ _ _ => i

/-- The `Enabled` public field. -/
def GObj.Enabled : GObj → Bool
  | .node _ e _ _ _ _ _ _ => e

/-- The `HandleInput` public field. -/
def GObj.HandleInput : GObj → Bool
  | .node _ _ h _ _ _ _ _ => h

/-- The `Position` public field. -/
def GObj.Position : GObj → Point
  | .node _ _ _ p _ _ _ _ => p

/-- The `Size` public field. -/
def GObj.Sz : GObj → Size
  | .node _ _ _ _ s _ _ _ => s

/-- The `Alignment` public field. -/
def GObj.Alignment : GObj → RectangleAlignment
  | .node _ _ _ _ _ a _ _ => a

/-- The attached scripts, in `__scripts` iteration order. -/
def GObj.scripts : GObj → List Nat
  | .node _ _ _ _ _ _ ss _ => ss

/-- The children, in `__childs` iteration order. -/
def GObj.childs : GObj → List GObj
  | .node _ _ _ _ _ _ _ cs => cs

/-- `Rectangle(Point, Size)` constructor. -/
def mkArea (p : Point) (s : Size) : Rectangle := ⟨p.X, p.Y, s.Width, s.Height⟩

/-- `GameObject::GetArea()`: `Rectangle(Position, Size)`. -/
def GObj.GetArea (o : GObj) : Rectangle := mkArea o.Position o.Sz

/-- One observable hook invocation performed by `GameObject::RaiseUpdateEvent`:
    a script's `OnEarlyUpdate`, the node's own virtual `OnUpdate`, a script's
    `OnUpdate`, the `UpdateEvent` caller, or a script's `OnLateUpdate`. -/
inductive UEv where
  | early (obj scr : Nat)
  | update (obj : Nat)
  | scriptUpd (obj scr : Nat)
  | updEvent (obj : Nat)
  | late (obj scr : Nat)
deriving Repr, DecidableEq

mutual

/-- Embeds `GameObject::RaiseUpdateEvent(bool recursive)` as the trace of
    hook invocations it performs, in source order: the scripts' early-update
    loop, `OnUpdate()`, the scripts' update loop, `UpdateEvent.Call`, then —
    only when `recursive` — the child loop followed by the scripts'
    late-update loop (the source returns before both when `!recursive`). -/
def GObj.RaiseUpdateEvent : GObj → Bool → List UEv
  | .node i _ _ _ _ _ ss cs, recursive =>
      ss.map (UEv.early i) ++ [UEv.update i] ++ ss.map (UEv.scriptUpd i)
        ++ [UEv.updEvent i]
        ++ (if recursive then updChilds cs ++ ss.map (UEv.late i) else [])

/-- The child loop of `RaiseUpdateEvent`: each child recurses with
    `recursive = true` (the call site passes no argument, taking the default). -/
def updChilds : List GObj → List UEv
  | [] => []
  | c :: cs => c.RaiseUpdateEvent true ++ updChilds cs

end

/-- The per-node update hooks (`OnUpdate()` invocations) in trace order. -/
def updates (tr : List UEv) : List Nat :=
  tr.filterMap fun e =>
    match e with
    | .update i => some i
    | _ => none

/-- Whether an event is a script late-update hook. -/
def UEv.isLate : UEv → Bool
  | .late _ _ => true
  | _ => false

mutual

/-- The node-first depth-first order on a tree: the node, then each child's
    entire subtree in child-sequence order. -/
def GObj.dfs : GObj → List Nat
  | .node i _ _ _ _ _ _ cs => i :: dfsChilds cs

/-- Depth-first order of a forest, in sequence order. -/
def dfsChilds : List GObj → List Nat
  | [] => []
  | c :: cs => c.dfs ++ dfsChilds cs

end

/-- One observable invocation performed by `GameObject::RaiseMouseDownEvent`:
    the unconditional global hook/event pair, or the hit-tested hook/event
    pair, each recorded with the `LocalPosition` the node received. -/
inductive MEv where
  | globalDown (obj : Nat) (pos : Point)
  | down (obj : Nat) (pos : Point)
deriving Repr, DecidableEq

mutual

/-- Embeds `GameObject::RaiseMouseDownEvent(args, recursive)` as the trace of
    hook invocations, tracking `args->LocalPosition`: the global hook fires
    unconditionally, the hit-tested hook only when
    `Rectangle(Point::Zero, Size).IsContain(LocalPosition)`; then for each
    enabled, input-handling child the argument is copied, the child's area is
    recomputed as `GetArea().LocalToGlobal(child->GetArea(), child->Alignment)`,
    that area's top-left is subtracted from the copied position, and the child
    recurses with the same `recursive` flag. -/
def GObj.RaiseMouseDownEvent : GObj → Point → Bool → List MEv
  | .node i _ _ p sz _ _ cs, pos, recursive =>
      [MEv.globalDown i pos]
        ++ (if (Rectangle.mk 0 0 sz.Width sz.Height).IsContain pos
            then [MEv.down i pos] else [])
        ++ (if recursive then mouseChilds (mkArea p sz) pos recursive cs else [])

/-- The child loop of `RaiseMouseDownEvent`; `parentArea` is this node's
    `GetArea()`.  Children that are disabled or not input-handling are
    skipped entirely. -/
def mouseChilds (parentArea : Rectangle) (pos : Point) (recursive : Bool) : List GObj → List MEv
  | [] => []
  | c :: cs =>
      (if c.Enabled && c.HandleInput then
        c.RaiseMouseDownEvent (pos.sub ((parentArea.LocalToGlobal c.GetArea c.Alignment).TopLeft)) recursive
      else []) ++ mouseChilds parentArea pos recursive cs

end

/- ===== Engine_GameObject.h : parent / child-set bookkeeping ===== -/

/-- The parent/child bookkeeping of all `GameObject`s, observed through the
    fields `__parent` (an optional parent per node) and `__childs`
    (a membership predicate: `childs p n` holds when `n` is in `p`'s child
    set).  Nodes are identified by `Nat` (their address). -/
structure ObjWorld where
  parent : Nat → Option Nat
  childs : Nat → Nat → Bool

/-- The world in which every `GameObject` has just been constructed:
    `__parent = nullptr` and `__childs` empty for every node. -/
def initWorld : ObjWorld := ⟨fun _ => none, fun _ _ => false⟩

/-- The first statement of `GameObject::SetParent`:
    `if (__parent) __parent->__childs.erase(this);`. -/
def eraseChild (w : ObjWorld) (n : Nat) : ObjWorld :=
  match w.parent n with
  | some p => { w with childs := fun q m => if q = p && m = n then false else w.childs q m }
  | none => w

/-- The second statement of `GameObject::SetParent`: `__parent = parent;`. -/
def assignParent (w : ObjWorld) (n : Nat) (pr : Option Nat) : ObjWorld :=
  { w with parent := fun m => if m = n then pr else w.parent m }

/-- The third statement of `GameObject::SetParent`:
    `if (parent) parent->__childs.insert(this);`. -/
def insertChild (w : ObjWorld) (n : Nat) (pr : Option Nat) : ObjWorld :=
  match pr with
  | some p => { w with childs := fun q m => if q = p && m = n then true else w.childs q m }
  | none => w

/-- `GameObject::SetParent(parent)` on node `n`: erase from the old parent's
    child set, then assign `__parent`, then insert into the new parent's
    child set — in that statement order. -/
def SetParent (w : ObjWorld) (n : Nat) (pr : Option Nat) : ObjWorld :=
  insertChild (assignParent (eraseChild w n) n pr) n pr

/-- One hierarchy operation of the claim: `SetParent`, `AddChild`
    (`child->SetParent(this)`), `DetachParent` (`SetParent(nullptr)`), or
    `DetachChild` (`child->SetParent(nullptr)`). -/
inductive TreeOp where
  | setParent (n : Nat) (pr : Option Nat)
  | addChild (p n : Nat)
  | detachParent (n : Nat)
  | detachChild (p n : Nat)
deriving Repr, DecidableEq

/-- Apply one hierarchy operation; each of the four entry points reduces to
    a `SetParent` call exactly as in the source. -/
def applyTreeOp (w : ObjWorld) : TreeOp → ObjWorld
  | .setParent n pr => SetParent w n pr
  | .addChild p n => SetParent w n (some p)
  | .detachParent n => SetParent w n none
  | .detachChild _ n => SetParent w n none

/-- Run a sequence of hierarchy operations from the all-fresh world. -/
def runTree (ops : List TreeOp) : ObjWorld := ops.foldl applyTreeOp initWorld

/-- The parent/child coherence invariant: `n` sits in `p`'s child set
    exactly when `n`'s parent pointer is `p`. -/
def TreeInv (w : ObjWorld) : Prop :=
  ∀ n p, w.childs p n = true ↔ w.parent n = some p

/- ===== Engine_GameObject.h : GameScene layers ===== -/

/-- One scene layer: the iteration sequence of its `std::unordered_set`
    of `GameObject*` (a duplicate-free list of node identities). -/
abbrev Layer := List Nat

/-- The layer vector `__layers` of one `GameScene`. -/
structure SceneLayers where
  layers : List Layer
deriving Repr, DecidableEq

/-- A freshly constructed scene:
    `__layers = std::vector<std::unordered_set<GameObject*>>(1)`. -/
def sceneInit : SceneLayers := ⟨[[]]⟩

/-- `unordered_set::erase(obj)` on a layer. -/
def setErase (l : Layer) (x : Nat) : Layer := l.filter fun y => y ≠ x

/-- `unordered_set::insert(obj)` on a layer. -/
def setInsert (l : Layer) (x : Nat) : Layer := if x ∈ l then l else x :: l

/-- In-place update of `__layers[i]` (`i` already known to be in range). -/
def updateAt : List Layer → Nat → (Layer → Layer) → List Layer
  | [], _, _ => []
  | l :: ls, 0, f => f l :: ls
  | l :: ls, i + 1, f => l :: updateAt ls i f

/-- The target-layer computation of `GameScene::Add`:
    `(layer < 0 || layer >= __layers.size()) ? __layers.size() - 1 : layer`. -/
def resolveLayer (s : SceneLayers) (layer : Int) : Nat :=
  if layer < 0 || layer ≥ (s.layers.length : Int) then s.layers.length - 1 else layer.toNat

/-- `GameScene::Add(obj, layer)`: resolve the target index, erase `obj` from
    every layer, then insert it into the target layer.  (The source's
    `if (!obj) return;` guard is outside the model: every `Nat` identity is a
    live object.) -/
def GameScene.Add (s : SceneLayers) (obj : Nat) (layer : Int) : SceneLayers :=
  ⟨updateAt (s.layers.map fun l => setErase l obj) (resolveLayer s layer)
    fun l => setInsert l obj⟩

/-- `GameScene::Remove(obj)`: erase from every layer. -/
def GameScene.Remove (s : SceneLayers) (obj : Nat) : SceneLayers :=
  ⟨s.layers.map fun l => setErase l obj⟩

/-- `GameScene::ClearLayer(layer_index)`: out-of-range indices are a no-op,
    otherwise the layer's contents are cleared. -/
def GameScene.ClearLayer (s : SceneLayers) (layer_index : Int) : SceneLayers :=
  if layer_index < 0 || layer_index ≥ (s.layers.length : Int) then s
  else ⟨updateAt s.layers layer_index.toNat fun _ => []⟩

/-- One layer-content operation of the claim. -/
inductive SceneOp where
  | add (obj : Nat) (layer : Int)
  | remove (obj : Nat)
  | clearLayer (layer_index : Int)
deriving Repr, DecidableEq

/-- Apply one layer-content operation. -/
def applySceneOp (s : SceneLayers) : SceneOp → SceneLayers
  | .add obj layer => GameScene.Add s obj layer
  | .remove obj => GameScene.Remove s obj
  | .clearLayer i => GameScene.ClearLayer s i

/-- Run a sequence of layer-content operations from a given scene state. -/
def runScene (s : SceneLayers) (ops : List SceneOp) : SceneLayers :=
  ops.foldl applySceneOp s

/-- No object sits in two layers at once: the layers are pairwise disjoint. -/
def LayersDisjoint (s : SceneLayers) : Prop :=
  s.layers.Pairwise fun a b => ∀ x ∈ a, x ∉ b

instance (s : SceneLayers) : Decidable (LayersDisjoint s) := by
  unfold LayersDisjoint; infer_instance

/-- `std::vector::operator[]` with an `int` index: any out-of-range access
    (negative after the size_t conversion, or at/after `size()`) is undefined
    behaviour, modelled as `none`. -/
def vecAt (ls : List Layer) (i : Int) : Option Layer :=
  if i < 0 then none else ls.get? i.toNat

/-- `GameScene::Count(int layer_index)` exactly as written:
    `(layer_index < 0 || layer_index >= __layers.size()) ? __layers[layer_index].size() : 0`
    — the out-of-range test selects the *indexing* branch and the in-range
    test selects the constant `0`. -/
def GameScene.CountAt (s : SceneLayers) (layer_index : Int) : Option Nat :=
  if layer_index < 0 || layer_index ≥ (s.layers.length : Int) then
    (vecAt s.layers layer_index).map List.length
  else some 0

/- ===== Engine_GameObject.h : GameScene registry / construction ===== -/

/-- The static state of the scene subsystem: the re-entrancy flag
    `__is_initialize` (true only while `Initialize`/`Deinitialize` run), the
    current-scene pointer `__curr_scene`, and the registry
    `__created_scenes` (scene identities). -/
structure SceneSys where
  is_initialize : Bool
  curr_scene : Option Nat
  created_scenes : List Nat
deriving Repr, DecidableEq

/-- `GameScene::IsInitialized()`:
    `__curr_scene && !__created_scenes.empty()`. -/
def SceneSys.IsInitialized (st : SceneSys) : Bool :=
  st.curr_scene.isSome && !st.created_scenes.isEmpty

/-- `unordered_set::insert` on the scene registry. -/
def regInsert (l : List Nat) (x : Nat) : List Nat := if x ∈ l then l else x :: l

/-- The exact message of the `std::runtime_error` thrown by the
    `GameScene` constructors. -/
def sceneCtorError : String :=
  "The Game Scene must be initialized successfully before creating a Game Scene!"

/-- The `GameScene()` constructor, acting on the subsystem state: it throws
    `std::runtime_error` when `!__is_initialize && !IsInitialized()`,
    registering nothing; otherwise it registers the new scene in
    `__created_scenes`. -/
def GameScene.construct (st : SceneSys) (id : Nat) : Except String SceneSys :=
  if !st.is_initialize && !st.IsInitialized then Except.error sceneCtorError
  else Except.ok { st with created_scenes := regInsert st.created_scenes id }

/- ===== Engine_Animation.h / Engine_Math.h : AnimationScript ===== -/

/-- `Interpolation::Clamp01` = `ENGINE_FAST_CLAMP(0, 1, value)`:
    `value < 0 ? 0 : (value > 1 ? 1 : value)`. -/
def Clamp01 (value : ℚ) : ℚ := if value < 0 then 0 else if value > 1 then 1 else value

/-- `Interpolation::InverseLinear(start, end, value)` =
    `Clamp01((value - start) / (end - start))`. -/
def InverseLinear (start fin value : ℚ) : ℚ := Clamp01 ((value - start) / (fin - start))

/-- The mutable state of one `AnimationScript`.  `double` fields are
    modelled as rationals; every arithmetic step the claims exercise is
    exact in binary floating point, so the models agree there. -/
structure AnimState where
  is_started : Bool
  is_played : Bool
  delay : ℚ
  duration : ℚ
  time : ℚ
  ResetOnFinish : Bool
  Repeated : Bool
deriving Repr, DecidableEq

/-- A freshly constructed `AnimationScript`: stopped, `__delay = 0`,
    `__duration = 0.01`, `__time = 0`, `ResetOnFinish = true`,
    `Repeated = false`. -/
def AnimState.fresh : AnimState :=
  ⟨false, false, 0, 1 / 100, 0, true, false⟩

/-- `AnimationScript::SetDuration`: clamped to at least `0.01`. -/
def AnimState.SetDuration (s : AnimState) (d : ℚ) : AnimState :=
  { s with duration := if d < 1 / 100 then 1 / 100 else d }

/-- `AnimationScript::SetDelay`: clamped to be non-negative. -/
def AnimState.SetDelay (s : AnimState) (d : ℚ) : AnimState :=
  { s with delay := if d < 0 then 0 else d }

/-- `AnimationScript::PlayAnimation()`: `__is_started = true`. -/
def AnimState.PlayAnimation (s : AnimState) : AnimState := { s with is_started := true }

/-- `AnimationScript::IsPlaying()`: `__is_started && __time >= __delay`. -/
def AnimState.IsPlaying (s : AnimState) : Bool :=
  s.is_started && decide (s.delay ≤ s.time)

/-- `AnimationScript::IsDelay()`: `__is_started && __time < __delay`. -/
def AnimState.IsDelay (s : AnimState) : Bool :=
  s.is_started && decide (s.time < s.delay)

/-- `AnimationScript::IsStarted()`: `__is_started`. -/
def AnimState.IsStarted (s : AnimState) : Bool := s.is_started

/-- One callback fired by `AnimationScript::OnUpdate`: the delaying pair
    (`OnDelayAnimation` / `DelayAnimationEvent`), the starting pair, the
    updating pair (with the normalized animation time), or the stopping
    pair. -/
inductive AnimEv where
  | delayEv
  | startEv
  | updateEv (t : ℚ)
  | stopEv
deriving Repr, DecidableEq

/-- Whether an animation callback is the updating one. -/
def AnimEv.isUpdate : AnimEv → Bool
  | .updateEv _ => true
  | _ => false

/-- Embeds `AnimationScript::OnUpdate` for one tick with frame delta
    `delta` (= `Application::GetDeltaTime()`), returning the successor state
    and the callbacks fired, in source order: accumulate `__time`; if
    `__time < __delay` fire the delaying callback and return; on the first
    tick with `__time >= __delay` set `__is_played` and fire the starting
    callback; fire the updating callback with
    `InverseLinear(__delay, __delay + __duration, __time)`; if
    `__time > end_time` clear `__is_started`, fire the stopping callback,
    reset when `ResetOnFinish || Repeated`, and restart when `Repeated`. -/
def AnimState.OnUpdate (s : AnimState) (delta : ℚ) : AnimState × List AnimEv :=
  if !s.is_started then (s, [])
  else
    let s1 : AnimState := { s with time := s.time + delta }
    if s1.time < s1.delay then (s1, [AnimEv.delayEv])
    else
      let started : AnimState × List AnimEv :=
        if !s1.is_played && decide (s1.delay ≤ s1.time) then
          ({ s1 with is_played := true }, [AnimEv.startEv])
        else (s1, [])
      let s2 := started.1
      let end_time := s2.delay + s2.duration
      let upd := [AnimEv.updateEv (InverseLinear s2.delay end_time s2.time)]
      if end_time < s2.time then
        let s3 : AnimState := { s2 with is_started := false }
        let s4 : AnimState :=
          if s3.ResetOnFinish || s3.Repeated then { s3 with time := 0, is_played := false } else s3
        let s5 : AnimState := if s4.Repeated then { s4 with is_started := true } else s4
        (s5, started.2 ++ upd ++ [AnimEv.stopEv])
      else (s2, started.2 ++ upd)

/-- Tick an `AnimationScript` through a sequence of frame deltas,
    accumulating the fired callbacks. -/
def runAnim (s : AnimState) (deltas : List ℚ) : AnimState × List AnimEv :=
  deltas.foldl (fun acc d =>
    let r := AnimState.OnUpdate acc.1 d
    (r.1, acc.2 ++ r.2)) (s, [])

/-- No updating callback occurs in a callback list. -/
def noUpdateEv (l : List AnimEv) : Bool := l.all fun e => !e.isUpdate

/-- No late-update hook occurs in an update trace. -/
def noLate (tr : List UEv) : Bool := tr.all fun e => !e.isLate

/- ===== Concrete scenario objects used by the claims ===== -/

/-- Node D of the depth-first ordering scenario (a child of B). -/
def cxD : GObj := .node 3 true true ⟨0, 0⟩ ⟨0, 0⟩ .TopLeft [] []

/-- Node B of the depth-first ordering scenario (added to R before C). -/
def cxB : GObj := .node 1 true true ⟨0, 0⟩ ⟨0, 0⟩ .TopLeft [] [cxD]

/-- Node C of the depth-first ordering scenario (added to R after B). -/
def cxC : GObj := .node 2 true true ⟨0, 0⟩ ⟨0, 0⟩ .TopLeft [] []

/-- Root R when the child set `{B, C}` happens to iterate as `[B, C]`. -/
def cxRootIns : GObj := .node 0 true true ⟨0, 0⟩ ⟨0, 0⟩ .TopLeft [] [cxB, cxC]

/-- Root R when the same child set `{B, C}` iterates as `[C, B]`; both
    sequences are possible iteration orders of one `std::unordered_set`
    holding B and C, whatever order they were inserted in. -/
def cxRootRev : GObj := .node 0 true true ⟨0, 0⟩ ⟨0, 0⟩ .TopLeft [] [cxC, cxB]

/-- A node with one attached script (identity 5) and no children. -/
def lateObj : GObj := .node 0 true true ⟨0, 0⟩ ⟨0, 0⟩ .TopLeft [5] []

/-- The mouse-propagation scenario's child: enabled, input-handling, local
    position (10,10), size 20×20, TopLeft-aligned. -/
def mChild : GObj := .node 1 true true ⟨10, 10⟩ ⟨20, 20⟩ .TopLeft [] []

/-- The mouse-propagation scenario's root: at the origin, sized 100×100. -/
def mRoot : GObj := .node 0 true true ⟨0, 0⟩ ⟨100, 100⟩ .TopLeft [] [mChild]

/-- The animation scenario's script: a fresh `AnimationScript` with
    `SetDuration(2.0)`, `SetDelay(1.0)`, started via `PlayAnimation()` at
    elapsed time 0. -/
def anim0 : AnimState := ((AnimState.fresh.SetDuration 2).SetDelay 1).PlayAnimation

/- ===================================================================== -/
/- =====                        THEOREMS                           ===== -/
/- ===================================================================== -/

/-- Claim C6: for every parent and child rectangle, including ones with
    negative width or height, `LocalToGlobal(child, TopLeft)` returns
    `X = parent.LeftSide() + child.LeftSide()`,
    `Y = parent.TopSide() + child.TopSide()`, with width/height the absolute
    values of the child's dimensions; `MiddleCenter` additionally adds
    `(abs(parent dimension) - abs(child dimension)) / 2` (C integer
    division) on each axis; and every alignment produces the absolute child
    dimensions. -/
theorem localToGlobal_alignment_formulas (parent child : Rectangle) :
    parent.LocalToGlobal child RectangleAlignment.TopLeft
      = ⟨parent.LeftSide + child.LeftSide, parent.TopSide + child.TopSide,
         |child.Width|, |child.Height|⟩ ∧
    parent.LocalToGlobal child RectangleAlignment.MiddleCenter
      = ⟨parent.LeftSide + child.LeftSide + Int.tdiv (|parent.Width| - |child.Width|) 2,
         parent.TopSide + child.TopSide + Int.tdiv (|parent.Height| - |child.Height|) 2,
         |child.Width|, |child.Height|⟩ ∧
    ∀ a : RectangleAlignment,
      (parent.LocalToGlobal child a).Width = |child.Width| ∧
      (parent.LocalToGlobal child a).Height = |child.Height| := by
  refine ⟨rfl, rfl, fun a => ?_⟩
  cases a <;> exact ⟨rfl, rfl⟩

/-- Claim C7: on a 100×100 root at the origin with an enabled,
    input-handling child at local position (10,10) of size 20×20,
    TopLeft-aligned, a recursive mouse-down with local position (15,15) on
    the root reaches the child with local position (5,5): the full hook
    trace is the root's global and hit-tested pair at (15,15) followed by
    the child's global and hit-tested pair at (5,5). -/
theorem mouseDown_rebases_child_position :
    GObj.RaiseMouseDownEvent mRoot ⟨15, 15⟩ true
      = [MEv.globalDown 0 ⟨15, 15⟩, MEv.down 0 ⟨15, 15⟩,
         MEv.globalDown 1 ⟨5, 5⟩, MEv.down 1 ⟨5, 5⟩] := by
  decide

/-- Claim C10: `GameScene::Count(int layer_index)` does NOT behave as
    claimed — its range test is inverted.  On a scene whose single layer
    holds one object, the in-range query `Count(0)` returns `0` instead of
    the layer's count `1`, and the out-of-range query `Count(1)` performs an
    out-of-bounds `__layers[1]` access (undefined behaviour, modelled as
    `none`) instead of safely returning `0`. -/
theorem count_layer_range_test_inverted :
    GameScene.CountAt ⟨[[7]]⟩ 0 = some 0 ∧
    GameScene.CountAt ⟨[[7]]⟩ 1 = none ∧
    GameScene.CountAt ⟨[[7]]⟩ (-1) = none := by
  decide

/-- Claim C5: the `AnimationScript` with delay 1.0 and duration 2.0 started
    at elapsed 0 and ticked by deltas 0.5, 1.0, 2.0: after the first tick
    (elapsed 0.5) `IsDelay()` and not `IsPlaying()`; after the second
    (elapsed 1.5) `IsPlaying()` and the updating callback carried normalized
    time 1/4; after the third (elapsed 3.5 > 3.0) the full callback
    sequence shows the stopping callback fired exactly once and, with
    `Repeated` false, `IsStarted()` is false. -/
theorem animation_fsm_timing :
    (runAnim anim0 [1/2]).1.IsDelay = true ∧
    (runAnim anim0 [1/2]).1.IsPlaying = false ∧
    (runAnim anim0 [1/2, 1]).1.IsPlaying = true ∧
    AnimEv.updateEv (1/4) ∈ (runAnim anim0 [1/2, 1]).2 ∧
    (runAnim anim0 [1/2, 1, 2]).2
      = [AnimEv.delayEv, AnimEv.startEv, AnimEv.updateEv (1/4),
         AnimEv.updateEv 1, AnimEv.stopEv] ∧
    (runAnim anim0 [1/2, 1, 2]).2.count AnimEv.stopEv = 1 ∧
    (runAnim anim0 [1/2, 1, 2]).1.IsStarted = false := by
  have htr : (runAnim anim0 [1/2, 1, 2]).2
      = [AnimEv.delayEv, AnimEv.startEv, AnimEv.updateEv (1/4),
         AnimEv.updateEv 1, AnimEv.stopEv] := by
    norm_num [runAnim, anim0, AnimState.fresh, AnimState.SetDuration, AnimState.SetDelay,
      AnimState.PlayAnimation, AnimState.OnUpdate, InverseLinear, Clamp01]
  refine ⟨?_, ?_, ?_, ?_, htr, ?_, ?_⟩ <;>
    first
      | (rw [htr]; simp [List.count_cons])
      | norm_num [runAnim, anim0, AnimState.fresh, AnimState.SetDuration, AnimState.SetDelay,
          AnimState.PlayAnimation, AnimState.OnUpdate, AnimState.IsDelay, AnimState.IsPlaying,
          AnimState.IsStarted, InverseLinear, Clamp01]

/-- Claim C4 counterexample: a started script with delay 1.0, duration 2.0 at
    elapsed 0, ticked by 0.5: the tick ends in the Delaying state, yet the
    callback list is exactly the delaying callback and contains no updating
    callback — refuting the claim that the updating callback fires on every
    tick while Delaying (the source returns before `OnUpdateAnimation` when
    `__time < __delay`). -/
theorem animation_delaying_tick_no_update :
    (AnimState.OnUpdate anim0 (1/2)).1.IsDelay = true ∧
    (AnimState.OnUpdate anim0 (1/2)).2 = [AnimEv.delayEv] ∧
    noUpdateEv (AnimState.OnUpdate anim0 (1/2)).2 = true := by
  refine ⟨?_, ?_, ?_⟩ <;>
    norm_num [AnimState.OnUpdate, anim0, AnimState.fresh, AnimState.SetDuration,
      AnimState.SetDelay, AnimState.PlayAnimation, AnimState.IsDelay, noUpdateEv,
      AnimEv.isUpdate]

/-- Claim C4 (amended): for every started `AnimationScript` and tick delta,
    if the accumulated elapsed time stays below the delay the tick fires
    exactly the delaying callback and ends in the Delaying state; and on
    every tick whose accumulated elapsed time reaches the delay (the playing
    regime) the updating callback fires with normalized time
    `clamp01((elapsed - delay) / duration)`.  (The original claim also had
    the updating callback fire on delaying ticks, which the early return
    refutes.) -/
theorem animation_tick_callbacks (s : AnimState) (delta : ℚ)
    (hs : s.is_started = true) :
    (s.time + delta < s.delay →
      (s.OnUpdate delta).2 = [AnimEv.delayEv] ∧ (s.OnUpdate delta).1.IsDelay = true) ∧
    (s.delay ≤ s.time + delta →
      AnimEv.updateEv (Clamp01 ((s.time + delta - s.delay) / s.duration))
        ∈ (s.OnUpdate delta).2) := by
  constructor
  · intro h
    simp [AnimState.OnUpdate, hs, h, AnimState.IsDelay]
  · intro h
    have hnlt : ¬ (s.time + delta < s.delay) := not_lt.mpr h
    have hdur : s.delay + s.duration - s.delay = s.duration := by ring
    simp only [AnimState.OnUpdate, hs, Bool.not_true, Bool.false_eq_true, if_false,
      InverseLinear, hdur]
    simp only [if_neg hnlt]
    split_ifs <;>
      simp_all [InverseLinear, hdur, List.mem_append]

/-- Witness for `animation_tick_callbacks` at the concrete delay-1 duration-2
    script: a 0.5 tick yields exactly the delaying callback, and a 2.0 tick
    fires the updating callback with the clamped normalized time. -/
theorem animation_tick_callbacks_witness :
    (AnimState.OnUpdate anim0 (1/2)).2 = [AnimEv.delayEv] ∧
    AnimEv.updateEv (Clamp01 ((anim0.time + 2 - anim0.delay) / anim0.duration))
      ∈ (AnimState.OnUpdate anim0 2).2 :=
  ⟨((animation_tick_callbacks anim0 (1/2) rfl).1 (by
      norm_num [anim0, AnimState.fresh, AnimState.SetDuration, AnimState.SetDelay,
        AnimState.PlayAnimation])).1,
   (animation_tick_callbacks anim0 2 rfl).2 (by
      norm_num [anim0, AnimState.fresh, AnimState.SetDuration, AnimState.SetDelay,
        AnimState.PlayAnimation])⟩

/-- After erasing a node from its recorded parent's child set, the node sits
    in no child set at all (given the coherence invariant). -/
theorem eraseChild_clears (w : ObjWorld) (hw : TreeInv w) (n q : Nat) :
    (eraseChild w n).childs q n = false := by
  rcases hpn : w.parent n with _ | p
  · simp only [eraseChild, hpn]
    rcases hx : w.childs q n
    · rfl
    · exact absurd ((hw n q).1 hx) (by simp [hpn])
  · simp only [eraseChild, hpn]
    by_cases hq : q = p
    · simp [hq]
    · simp only [decide_eq_true_eq, hq, false_and, if_false, decide_True, Bool.and_true]
      rcases hx : w.childs q n
      · simp [hq]
      · exact absurd ((hw n q).1 hx) (by simp [hpn, Ne.symm hq, hq])

/-- Erasing one node from its parent's child set leaves every other node's
    memberships untouched. -/
theorem eraseChild_other (w : ObjWorld) (n m q : Nat) (hm : m ≠ n) :
    (eraseChild w n).childs q m = w.childs q m := by
  rcases hpn : w.parent n with _ | p <;> simp [eraseChild, hpn, hm]

/-- The erase step never touches the parent pointers. -/
theorem eraseChild_parent (w : ObjWorld) (n : Nat) :
    (eraseChild w n).parent = w.parent := by
  unfold eraseChild
  rcases w.parent n with _ | p <;> rfl

/-- `SetParent` preserves the parent/child coherence invariant. -/
theorem TreeInv_setParent (w : ObjWorld) (hw : TreeInv w) (n : Nat) (pr : Option Nat) :
    TreeInv (SetParent w n pr) := by
  intro m q
  rcases pr with _ | p
  · simp only [SetParent, insertChild, assignParent]
    by_cases hm : m = n
    · subst hm
      simp [eraseChild_clears w hw m q]
    · simp only [if_neg hm, eraseChild_other w n m q hm, eraseChild_parent]
      exact hw m q
  · simp only [SetParent, insertChild, assignParent]
    by_cases hm : m = n
    · subst hm
      by_cases hq : q = p
      · subst hq; simp
      · simp [hq, eraseChild_clears w hw m q, Ne.symm hq]
    · simp [hm, if_neg hm, eraseChild_other w n m q hm, eraseChild_parent]
      exact hw m q

/-- Every run of hierarchy operations preserves the coherence invariant. -/
theorem TreeInv_foldl (ops : List TreeOp) (w : ObjWorld) (hw : TreeInv w) :
    TreeInv (ops.foldl applyTreeOp w) := by
  induction ops generalizing w with
  | nil => exact hw
  | cons op ops ih =>
      apply ih
      cases op <;> exact TreeInv_setParent _ hw _ _

/-- The all-fresh world satisfies the coherence invariant. -/
theorem TreeInv_init : TreeInv initWorld := by
  intro n p
  simp [initWorld]

/-- Claim C1: after any sequence of SetParent/AddChild/DetachParent/
    DetachChild operations, a node whose parent is `p` is a member of `p`'s
    child set, no node is simultaneously in the child sets of two distinct
    parents, and during `SetParent` the erase step (which runs before the
    insert step, by the statement order of the source) leaves the node in no
    child set at all. -/
theorem gameObject_parent_child_coherence (ops : List TreeOp) (n p p1 p2 q : Nat) :
    ((runTree ops).parent n = some p → (runTree ops).childs p n = true) ∧
    ((runTree ops).childs p1 n = true → (runTree ops).childs p2 n = true → p1 = p2) ∧
    (eraseChild (runTree ops) n).childs q n = false := by
  have hw : TreeInv (runTree ops) := TreeInv_foldl ops initWorld TreeInv_init
  refine ⟨fun h => (hw n p).2 h, fun h1 h2 => ?_, eraseChild_clears _ hw n q⟩
  have e1 := (hw n p1).1 h1
  have e2 := (hw n p2).1 h2
  rw [e1] at e2
  exact Option.some_injective _ e2

/-- Witness for `gameObject_parent_child_coherence`: after
    `SetParent(node 1, parent 2)` from the fresh world, node 1 is in node
    2's child set. -/
theorem gameObject_parent_child_coherence_witness :
    (runTree [TreeOp.setParent 1 (some 2)]).childs 2 1 = true :=
  (gameObject_parent_child_coherence [TreeOp.setParent 1 (some 2)] 1 2 2 2 0).1 (by decide)

/-- The update-hook projection of the empty trace. -/
theorem updates_nil : updates [] = [] := rfl

/-- The update-hook projection distributes over trace concatenation. -/
theorem updates_append (a b : List UEv) : updates (a ++ b) = updates a ++ updates b :=
  List.filterMap_append a b _

/-- A leading `OnUpdate()` event contributes its node to the projection. -/
theorem updates_cons_update (i : Nat) (tr : List UEv) :
    updates (UEv.update i :: tr) = i :: updates tr := by
  simp [updates, List.filterMap_cons]

/-- A leading `UpdateEvent` call contributes nothing to the projection. -/
theorem updates_cons_updEvent (i : Nat) (tr : List UEv) :
    updates (UEv.updEvent i :: tr) = updates tr := by
  simp [updates, List.filterMap_cons]

/-- Script early-update events contribute nothing to the projection. -/
theorem updates_map_early (i : Nat) (ss : List Nat) : updates (ss.map (UEv.early i)) = [] := by
  induction ss with
  | nil => rfl
  | cons a l ih => simpa [updates, List.filterMap_cons] using ih

/-- Script update events contribute nothing to the projection. -/
theorem updates_map_scriptUpd (i : Nat) (ss : List Nat) :
    updates (ss.map (UEv.scriptUpd i)) = [] := by
  induction ss with
  | nil => rfl
  | cons a l ih => simpa [updates, List.filterMap_cons] using ih

/-- Script late-update events contribute nothing to the projection. -/
theorem updates_map_late (i : Nat) (ss : List Nat) : updates (ss.map (UEv.late i)) = [] := by
  induction ss with
  | nil => rfl
  | cons a l ih => simpa [updates, List.filterMap_cons] using ih

mutual

/-- Recursive update delivery visits the per-node update hooks in exactly
    the node-first depth-first order of the tree: every child subtree is
    fully processed before the next sibling in the child sequence. -/
theorem updates_raise (o : GObj) : updates (o.RaiseUpdateEvent true) = o.dfs := by
  cases o with
  | node i e h p sz al ss cs =>
      simp only [GObj.RaiseUpdateEvent, GObj.dfs, if_true, List.append_assoc,
        List.singleton_append, updates_append, updates_map_early,
        updates_map_scriptUpd, updates_map_late, updates_cons_update,
        updates_cons_updEvent, updates_nil, updates_updChilds cs,
        List.nil_append, List.append_nil]

/-- The child loop visits each child subtree depth-first, in sequence
    order. -/
theorem updates_updChilds (cs : List GObj) : updates (updChilds cs) = dfsChilds cs := by
  cases cs with
  | nil => rfl
  | cons c cs =>
      simp only [updChilds, dfsChilds, updates_append, updates_raise c, updates_updChilds cs]

end

/-- Claim C2 counterexample: the child set `{B, C}` of R is one and the same
    set whether it iterates as `[B, C]` or `[C, B]` (the identity lists are
    permutations of each other), yet with the `[C, B]` iteration —
    permitted by `std::unordered_set`, which ties iteration order to
    pointer hashing and not to insertion order — the per-node update hooks
    fire as R, C, B, D, not as the claimed R, B, D, C. -/
theorem update_order_not_insertion_order :
    (List.map GObj.id [cxC, cxB]).Perm (List.map GObj.id [cxB, cxC]) ∧
    updates (GObj.RaiseUpdateEvent cxRootRev true) = [0, 2, 1, 3] ∧
    updates (GObj.RaiseUpdateEvent cxRootRev true) ≠ [0, 1, 3, 2] := by
  refine ⟨?_, ?_, ?_⟩ <;> decide

/-- Claim C2 (amended): `RaiseUpdateEvent(true)` updates each child's entire
    subtree before moving to the next sibling, visiting children in the
    child set's iteration order; when R's children iterate as `[B, C]` the
    per-node update hooks fire exactly as R, B, D, C.  (The original claim
    asserted the children iterate in insertion order, which
    `std::unordered_set` does not guarantee.) -/
theorem update_order_depth_first :
    updates (GObj.RaiseUpdateEvent cxRootIns true) = [0, 1, 3, 2] ∧
    ∀ o : GObj, updates (o.RaiseUpdateEvent true) = o.dfs :=
  ⟨by decide, updates_raise⟩

/-- `noLate` distributes over trace concatenation. -/
theorem noLate_append (a b : List UEv) : noLate (a ++ b) = (noLate a && noLate b) :=
  List.all_append

/-- Script early-update events are not late-update hooks. -/
theorem noLate_map_early (i : Nat) (ss : List Nat) : noLate (ss.map (UEv.early i)) = true := by
  induction ss <;> simp_all [noLate, UEv.isLate]

/-- Script update events are not late-update hooks. -/
theorem noLate_map_scriptUpd (i : Nat) (ss : List Nat) :
    noLate (ss.map (UEv.scriptUpd i)) = true := by
  induction ss <;> simp_all [noLate, UEv.isLate]

/-- Claim C3 counterexample: on a node with one attached script, the
    non-recursive call `RaiseUpdateEvent(false)` fires no late-update hook
    at all (the source returns before the late-update loop when
    `!recursive`), even though the same node's recursive call does fire the
    script's `OnLateUpdate` — refuting the claim that the late-update hook
    fires on every `RaiseUpdateEvent` call. -/
theorem lateUpdate_skipped_nonrecursive :
    noLate (GObj.RaiseUpdateEvent lateObj false) = true ∧
    UEv.late 0 5 ∈ GObj.RaiseUpdateEvent lateObj true := by
  refine ⟨?_, ?_⟩ <;> decide

/-- Claim C3 (amended): for every node, `RaiseUpdateEvent(true)` fires, in
    order, all scripts' `OnEarlyUpdate`, the node's own update hook and its
    Update event, every child's full recursive pass, and finally — after the
    entire subtree — all scripts' `OnLateUpdate`; `RaiseUpdateEvent(false)`
    ends right after the Update event, so no late-update hook fires on a
    non-recursive call.  (The original claim asserted the late-update hook
    fires on every call.) -/
theorem raiseUpdate_phase_order (i : Nat) (e h : Bool) (p : Point) (sz : Size)
    (al : RectangleAlignment) (ss : List Nat) (cs : List GObj) :
    GObj.RaiseUpdateEvent (.node i e h p sz al ss cs) true
      = ss.map (UEv.early i) ++ [UEv.update i] ++ ss.map (UEv.scriptUpd i)
          ++ [UEv.updEvent i] ++ updChilds cs ++ ss.map (UEv.late i) ∧
    GObj.RaiseUpdateEvent (.node i e h p sz al ss cs) false
      = ss.map (UEv.early i) ++ [UEv.update i] ++ ss.map (UEv.scriptUpd i) ++ [UEv.updEvent i] ∧
    noLate (GObj.RaiseUpdateEvent (.node i e h p sz al ss cs) false) = true := by
  have htr : GObj.RaiseUpdateEvent (.node i e h p sz al ss cs) false
      = ss.map (UEv.early i) ++ [UEv.update i] ++ ss.map (UEv.scriptUpd i)
          ++ [UEv.updEvent i] := by
    simp [GObj.RaiseUpdateEvent]
  refine ⟨by simp [GObj.RaiseUpdateEvent], htr, ?_⟩
  rw [htr]
  simp [noLate_append, noLate_map_early, noLate_map_scriptUpd, noLate, UEv.isLate]

/-- In-place layer update preserves the number of layers. -/
theorem length_updateAt (ls : List Layer) (i : Nat) (f : Layer → Layer) :
    (updateAt ls i f).length = ls.length := by
  induction ls generalizing i with
  | nil => rfl
  | cons l ls ih =>
      cases i with
      | zero => rfl
      | succ i => simp [updateAt, ih]

/-- Indexing after an in-place layer update. -/
theorem updateAt_getElem (ls : List Layer) (i : Nat) (f : Layer → Layer) (j : Nat) :
    (updateAt ls i f)[j]? = if j = i then ls[j]?.map f else ls[j]? := by
  induction ls generalizing i j with
  | nil => simp [updateAt]
  | cons l ls ih =>
      cases i with
      | zero =>
          cases j with
          | zero => simp [updateAt]
          | succ j => simp [updateAt]
      | succ i =>
          cases j with
          | zero => simp [updateAt]
          | succ j => simpa [updateAt] using ih i j

/-- Membership after a set erase. -/
theorem mem_setErase (l : Layer) (x y : Nat) : y ∈ setErase l x ↔ y ∈ l ∧ y ≠ x := by
  simp [setErase]

/-- Membership after a set insert. -/
theorem mem_setInsert (l : Layer) (x y : Nat) : y ∈ setInsert l x ↔ y = x ∨ y ∈ l := by
  by_cases h : x ∈ l
  · simp only [setInsert, if_pos h]
    constructor
    · exact Or.inr
    · rintro (rfl | hy)
      · exact h
      · exact hy
  · simp [setInsert, if_neg h]

/-- Every layer of an updated layer vector is an old layer or the image of
    an old layer under the update. -/
theorem mem_updateAt (ls : List Layer) (i : Nat) (f : Layer → Layer) (m : Layer)
    (hm : m ∈ updateAt ls i f) : m ∈ ls ∨ ∃ l0, l0 ∈ ls ∧ m = f l0 := by
  induction ls generalizing i with
  | nil => simp [updateAt] at hm
  | cons l ls ih =>
      cases i with
      | zero =>
          rcases List.mem_cons.mp hm with rfl | hm
          · exact Or.inr ⟨l, List.mem_cons_self l ls, rfl⟩
          · exact Or.inl (List.mem_cons_of_mem l hm)
      | succ i =>
          rcases List.mem_cons.mp hm with rfl | hm
          · exact Or.inl (List.mem_cons_self _ _)
          · rcases ih i hm with h1 | ⟨l0, hl0, rfl⟩
            · exact Or.inl (List.mem_cons_of_mem l h1)
            · exact Or.inr ⟨l0, List.mem_cons_of_mem l hl0, rfl⟩

/-- The target layer `GameScene::Add` resolves to is always in range for a
    scene with at least one layer. -/
theorem resolveLayer_lt (s : SceneLayers) (hlen : 1 ≤ s.layers.length) (layer : Int) :
    resolveLayer s layer < s.layers.length := by
  unfold resolveLayer
  split_ifs with h
  · omega
  · simp only [Bool.or_eq_true, decide_eq_true_eq, not_or] at h
    omega

/-- Erasing an object from every layer preserves pairwise disjointness. -/
theorem disjoint_map_erase (ls : List Layer) (x : Nat)
    (h : ls.Pairwise fun a b => ∀ y ∈ a, y ∉ b) :
    (ls.map fun l => setErase l x).Pairwise fun a b => ∀ y ∈ a, y ∉ b := by
  refine List.Pairwise.map _ (fun a b hab => ?_) h
  intro y hy hyb
  exact hab y ((mem_setErase a x y).mp hy).1 ((mem_setErase b x y).mp hyb).1

/-- After erasing an object from every layer, it is a member of none. -/
theorem not_mem_map_erase (ls : List Layer) (x : Nat) :
    ∀ l ∈ ls.map fun l => setErase l x, x ∉ l := by
  intro l hl
  obtain ⟨l0, _, rfl⟩ := List.mem_map.mp hl
  simp [mem_setErase]

/-- Inserting an object that sits in no layer into exactly one layer
    preserves pairwise disjointness. -/
theorem pairwise_updateAt_insert (ls : List Layer) (i : Nat) (x : Nat)
    (h : ls.Pairwise fun a b => ∀ y ∈ a, y ∉ b) (hx : ∀ l ∈ ls, x ∉ l) :
    (updateAt ls i fun l => setInsert l x).Pairwise fun a b => ∀ y ∈ a, y ∉ b := by
  induction ls generalizing i with
  | nil => exact List.Pairwise.nil
  | cons l ls ih =>
      rcases List.pairwise_cons.mp h with ⟨hl, hls⟩
      cases i with
      | zero =>
          refine List.pairwise_cons.mpr ⟨?_, hls⟩
          intro b hb y hy hyb
          rcases (mem_setInsert l x y).mp hy with rfl | hyl
          · exact hx b (List.mem_cons_of_mem l hb) hyb
          · exact hl b hb y hyl hyb
      | succ i =>
          refine List.pairwise_cons.mpr ⟨?_, ?_⟩
          · intro b hb y hy hyb
            rcases mem_updateAt ls i _ b hb with h1 | ⟨l0, hl0, rfl⟩
            · exact hl b h1 y hy hyb
            · rcases (mem_setInsert l0 x y).mp hyb with rfl | hyl0
              · exact hx l (List.mem_cons_self _ _) hy
              · exact hl l0 hl0 y hy hyl0
          · exact ih i hls fun m hm => hx m (List.mem_cons_of_mem l hm)

/-- Clearing one layer preserves pairwise disjointness. -/
theorem pairwise_updateAt_clear (ls : List Layer) (i : Nat)
    (h : ls.Pairwise fun a b => ∀ y ∈ a, y ∉ b) :
    (updateAt ls i fun _ => ([] : Layer)).Pairwise fun a b => ∀ y ∈ a, y ∉ b := by
  induction ls generalizing i with
  | nil => exact List.Pairwise.nil
  | cons l ls ih =>
      rcases List.pairwise_cons.mp h with ⟨hl, hls⟩
      cases i with
      | zero =>
          refine List.pairwise_cons.mpr ⟨?_, hls⟩
          intro b hb y hy
          cases hy
      | succ i =>
          refine List.pairwise_cons.mpr ⟨?_, ih i hls⟩
          intro b hb y hy hyb
          rcases mem_updateAt ls i _ b hb with h1 | ⟨l0, hl0, rfl⟩
          · exact hl b h1 y hy hyb
          · cases hyb

/-- Each of `Add`, `Remove`, `ClearLayer` preserves layer disjointness. -/
theorem disjoint_applySceneOp (s : SceneLayers) (op : SceneOp)
    (h : LayersDisjoint s) : LayersDisjoint (applySceneOp s op) := by
  cases op with
  | add obj layer =>
      exact pairwise_updateAt_insert _ _ obj (disjoint_map_erase s.layers obj h)
        (not_mem_map_erase s.layers obj)
  | remove obj => exact disjoint_map_erase s.layers obj h
  | clearLayer i =>
      simp only [applySceneOp, GameScene.ClearLayer]
      split_ifs with hc
      · exact h
      · exact pairwise_updateAt_clear s.layers i.toNat h

/-- Any run of `Add`/`Remove`/`ClearLayer` preserves layer disjointness. -/
theorem disjoint_runScene (ops : List SceneOp) (s : SceneLayers)
    (h : LayersDisjoint s) : LayersDisjoint (runScene s ops) := by
  induction ops generalizing s with
  | nil => exact h
  | cons op ops ih => exact ih (applySceneOp s op) (disjoint_applySceneOp s op h)

/-- Claim C8: starting from any scene state with at least one layer and
    pairwise-disjoint layers (as every reachable `GameScene` is), no
    sequence of `Add`/`Remove`/`ClearLayer` operations ever leaves an object
    in two layers at once; and immediately after `Add(obj, layer)` the
    object is a member of exactly the resolved target layer (the last layer
    when the index is negative or out of range). -/
theorem gameScene_layer_exclusivity (s : SceneLayers) (hlen : 1 ≤ s.layers.length)
    (hdisj : LayersDisjoint s) (ops : List SceneOp) (obj : Nat) (layer : Int) :
    LayersDisjoint (runScene s ops) ∧
    (∀ j l, (GameScene.Add s obj layer).layers[j]? = some l →
      (obj ∈ l ↔ j = resolveLayer s layer)) ∧
    (∃ l, (GameScene.Add s obj layer).layers[resolveLayer s layer]? = some l ∧ obj ∈ l) := by
  refine ⟨disjoint_runScene ops s hdisj, ?_, ?_⟩
  · intro j l hl
    rw [GameScene.Add] at hl
    rw [updateAt_getElem] at hl
    by_cases hj : j = resolveLayer s layer
    · rw [if_pos hj] at hl
      rcases hmap : s.layers[j]? with _ | l0
      · simp [List.getElem?_map, hmap] at hl
      · simp only [List.getElem?_map, hmap, Option.map_some] at hl
        cases hl
        simp [mem_setInsert, hj]
    · rw [if_neg hj] at hl
      rcases hmap : s.layers[j]? with _ | l0
      · simp [List.getElem?_map, hmap] at hl
      · simp only [List.getElem?_map, hmap, Option.map_some] at hl
        cases hl
        simp [mem_setErase, hj]
  · have hlt : resolveLayer s layer < s.layers.length := resolveLayer_lt s hlen layer
    have hsome : s.layers[resolveLayer s layer]?
        = some (s.layers.get ⟨resolveLayer s layer, hlt⟩) :=
      List.getElem?_eq_getElem hlt
    refine ⟨setInsert (setErase (s.layers.get ⟨resolveLayer s layer, hlt⟩) obj) obj, ?_, ?_⟩
    · rw [GameScene.Add, updateAt_getElem, if_pos rfl]
      simp [List.getElem?_map, hsome]
    · simp [mem_setInsert]

/-- Witness for `gameScene_layer_exclusivity` on a two-layer scene holding
    object 3 in its bottom layer: after `Add(3, 1)` the object is found in
    the resolved layer 1. -/
theorem gameScene_layer_exclusivity_witness :
    ∃ l, (GameScene.Add ⟨[[3], []]⟩ 3 1).layers[resolveLayer ⟨[[3], []]⟩ 1]? = some l ∧ 3 ∈ l :=
  (gameScene_layer_exclusivity ⟨[[3], []]⟩ (by decide) (by decide) [] 3 1).2.2

/-- Claim C9: constructing a `GameScene` outside `Initialize`/`Deinitialize`
    (the `__is_initialize` flag is down) while the subsystem is not
    initialized (no current scene, or an empty scene registry) throws the
    `std::runtime_error` and registers nothing — the thrown path never
    reaches the registry insert; constructing one while the subsystem is
    initialized succeeds and registers the scene.  Every other operation
    embedded in this development is a total function that signals misuse by
    a no-op or default value, never by throwing. -/
theorem gameScene_ctor_gate (st : SceneSys) (id : Nat) :
    (st.is_initialize = false → st.IsInitialized = false →
      GameScene.construct st id = Except.error sceneCtorError) ∧
    (st.IsInitialized = true →
      GameScene.construct st id
        = Except.ok { st with created_scenes := regInsert st.created_scenes id }) := by
  constructor
  · intro h1 h2
    simp [GameScene.construct, h1, h2]
  · intro h1
    simp [GameScene.construct, h1]

/-- Witness for `gameScene_ctor_gate`: with no current scene and an empty
    registry the constructor throws; with a current scene registered it
    succeeds and registers the new scene. -/
theorem gameScene_ctor_gate_witness :
    GameScene.construct ⟨false, none, []⟩ 7 = Except.error sceneCtorError ∧
    GameScene.construct ⟨false, some 0, [0]⟩ 7
      = Except.ok ⟨false, some 0, regInsert [0] 7⟩ :=
  ⟨(gameScene_ctor_gate ⟨false, none, []⟩ 7).1 rfl rfl,
   (gameScene_ctor_gate ⟨false, some 0, [0]⟩ 7).2 rfl⟩

end AGE
